import Mathlib

/-!
Shallow embedding of the spam-email processing pipeline
(`SpamEmailProcessor` in `spam-email.py`).

Strings are modelled as `List Char`; bytes as `List Nat` (each < 256).
External library boundaries (the HTML parser, the HTTP client, the WHOIS
client, the filesystem and the MIME header parser) are modelled as inputs
or oracles: the functions of this file embed the logic the repository
itself performs on the values those libraries return.
-/

set_option maxRecDepth 10000

/-- ASCII lower-casing of a character, as `str.lower` acts on `[A-Z]`
(all inputs relevant to the claims are ASCII). -/
def lc (c : Char) : Char :=
  if 'A' ≤ c && c ≤ 'Z' then Char.ofNat (c.toNat + 32) else c

/-- `startsWithL s p` is true when `p` is an initial segment of `s`. -/
def startsWithL : List Char → List Char → Bool
  | _, [] => true
  | [], _ :: _ => false
  | c :: cs, p :: ps => c = p && startsWithL cs ps

/-- Substring occurrence test: `containsL s p` is true when `p` occurs
contiguously somewhere in `s` (the semantics of a literal `re.search`). -/
def containsL (s p : List Char) : Bool :=
  match s with
  | [] => startsWithL [] p
  | _ :: rest => startsWithL s p || containsL rest p

/-- `gapThen b s` is true when `s` starts with `.*b` in Python `re`
semantics: a run of characters other than a newline, then `b`. -/
def gapThen (b : List Char) : List Char → Bool
  | [] => startsWithL [] b
  | s@(c :: rest) => startsWithL s b || (!(c = Char.ofNat 10) && gapThen b rest)

/-- `searchGap s a b` is `re.search` of the pattern `a.*b` in `s`. -/
def searchGap (s a b : List Char) : Bool :=
  match s with
  | [] => startsWithL [] a && gapThen b []
  | _ :: rest => (startsWithL s a && gapThen b (s.drop a.length)) || searchGap rest a b

/-- `gapThen2 b c s`: `s` starts with `.*b.*c` (no newline inside either gap). -/
def gapThen2 (b c : List Char) : List Char → Bool
  | [] => startsWithL [] b && gapThen c []
  | s@(ch :: rest) =>
      (startsWithL s b && gapThen c (s.drop b.length))
        || (!(ch = Char.ofNat 10) && gapThen2 b c rest)

/-- `searchGap2 s a b c` is `re.search` of the pattern `a.*b.*c` in `s`. -/
def searchGap2 (s a b c : List Char) : Bool :=
  match s with
  | [] => startsWithL [] a && gapThen2 b c []
  | _ :: rest =>
      (startsWithL s a && gapThen2 b c (s.drop a.length)) || searchGap2 rest a b c

/-! ### Sender-domain extraction (`extract_email_metadata`, lines 123-128) -/

/-- The character class `[a-zA-Z0-9.-]` of the domain regular expression. -/
def isDomainChar (c : Char) : Bool :=
  ('a' ≤ c && c ≤ 'z') || ('A' ≤ c && c ≤ 'Z') || ('0' ≤ c && c ≤ '9')
    || c = '.' || c = '-'

/-- Leftmost match of the pattern `@([a-zA-Z0-9.-]+)` over the From header:
the first `@` that is immediately followed by at least one character of the
class yields the maximal run of such characters (the capture group). -/
def domainSearch : List Char → Option (List Char)
  | [] => none
  | c :: rest =>
      if c = '@' then
        let run := rest.takeWhile isDomainChar
        if run = [] then domainSearch rest else some run
      else domainSearch rest

/-- `extract_email_metadata` sender-domain step: when the decoded From value
contains an `@`, search it with `@([a-zA-Z0-9.-]+)` and record group 1 as
`sender_domain`; otherwise the field is absent. -/
def extract_sender_domain (fromHdr : List Char) : Option (List Char) :=
  if '@' ∈ fromHdr then domainSearch fromHdr else none

/-! ### Opt-out attempt loop (`attempt_unsubscribe`, lines 191-221) -/

/-- Outcome of the HTTP GET issued by `requests.get(link, timeout=10,
allow_redirects=True)`, supplied as an oracle: either a response (with final
status code and final URL after redirects) or a raised transport-level
exception carrying its message. -/
inductive NetOutcome
  | response (code : Nat) (finalUrl : List Char)
  | exc (msg : List Char)

/-- One recorded opt-out attempt result dictionary. A `none` field models a
key absent from the Python dict. -/
structure UnsubResult where
  link : List Char
  statusCode : Option Nat
  success : Bool
  respUrl : Option (List Char)
  error : Option (List Char)
deriving DecidableEq

/-- Body of the `attempt_unsubscribe` loop for one candidate: on a response,
record the status code and `success := status_code == 200`; on an exception,
catch it and record a non-success result carrying the error string. -/
def attemptOne (net : List Char → NetOutcome) (link : List Char) : UnsubResult :=
  match net link with
  | .response code u =>
      { link := link, statusCode := some code, success := code == 200
        respUrl := some u, error := none }
  | .exc m =>
      { link := link, statusCode := none, success := false
        respUrl := none, error := some m }

/-- `attempt_unsubscribe`: every candidate in order is attempted once and
appended to the result list; no exception escapes the loop. -/
def attempt_unsubscribe (net : List Char → NetOutcome)
    (links : List (List Char)) : List UnsubResult :=
  links.map (attemptOne net)

/-- Whether the oracle raises a transport-level exception for a link. -/
def netRaises (net : List Char → NetOutcome) (link : List Char) : Bool :=
  match net link with
  | .response _ _ => false
  | .exc _ => true

/-! ### Authority report staging (`report_to_authorities`, lines 259-293) -/

/-- One staged authority-report descriptor (timestamps are not modelled:
the embedding has no clock and no claim concerns them). -/
structure AuthorityReport where
  authority : List Char
  method : List Char
  status : List Char
deriving DecidableEq

/-- `report_to_authorities` builds the same three descriptors for every
message, unconditionally, in FTC, IC3, APWG order. -/
def report_to_authorities : List AuthorityReport :=
  [ { authority := "FTC".data, method := "Online Form".data
      status := "Manual submission required".data }
  , { authority := "IC3".data, method := "Online Form".data
      status := "Manual submission required".data }
  , { authority := "APWG".data, method := "Email".data
      status := "Ready for email submission".data } ]

/-! ### Plain-text URL detector (`find_unsubscribe_links`, lines 183-187)

The Python code runs `re.findall` with the pattern
`https?://[^\s<>"\x27]+(?:unsubscribe|opt-?out|remove)[^\s<>"\x27]*`
and `re.IGNORECASE` over the plain-text content. The scanner below embeds
exactly that backtracking search: a match starts at `http`/`https` followed
by `://`; the greedy character-class runs together span the maximal stretch
of characters outside the excluded set, and the alternation requires one of
the keywords to occur at offset at least 1 inside that stretch. `findall`
restarts after the end of each match (non-overlapping) and advances one
character after a failed start. -/

/-- The excluded class `[\s<>"\x27]` of the URL pattern (whitespace, angle
brackets, double quote, apostrophe; `\s` over ASCII input). -/
def isUrlChar (c : Char) : Bool :=
  !(c = ' ' || c = Char.ofNat 9 || c = Char.ofNat 10 || c = Char.ofNat 11
    || c = Char.ofNat 12 || c = Char.ofNat 13
    || c = '<' || c = '>' || c = Char.ofNat 34 || c = Char.ofNat 39)

/-- Case-insensitive prefix test used for the keyword alternation. -/
def startsWithCI (s p : List Char) : Bool :=
  startsWithL (s.map lc) p

/-- Does one of the alternation branches `unsubscribe | opt-?out | remove`
match at the head of `s` (case-insensitively)? -/
def kwAt (s : List Char) : Bool :=
  startsWithCI s "unsubscribe".data || startsWithCI s "opt-out".data
    || startsWithCI s "optout".data || startsWithCI s "remove".data

/-- Does a keyword occur anywhere in `s`? -/
def kwSomewhere : List Char → Bool
  | [] => false
  | s@(_ :: rest) => kwAt s || kwSomewhere rest

/-- Does a keyword occur at offset at least 1 in `s` (the first `+` class
must consume at least one character before the alternation)? -/
def kwProper : List Char → Bool
  | [] => false
  | _ :: rest => kwSomewhere rest

/-- Length of the scheme part matched by `https?://` (case-insensitive)
at the head of `s`: 8 for `https://`, 7 for `http://`, none otherwise. -/
def schemeLen (s : List Char) : Option Nat :=
  if (s.take 8).map lc = "https://".data then some 8
  else if (s.take 7).map lc = "http://".data then some 7
  else none

/-- Attempt the URL pattern anchored at the head of `s`. On success,
return the matched substring and the remainder of `s` after the match. -/
def tryUrlAt (s : List Char) : Option (List Char × List Char) :=
  match schemeLen s with
  | none => none
  | some n =>
      let a := s.drop n
      let run := a.takeWhile isUrlChar
      if kwProper run then some (s.take n ++ run, a.dropWhile isUrlChar)
      else none

/-- `re.findall` of the URL pattern, driven by a fuel counter (one unit of
fuel is spent per character position visited; a match consumes at least
eight characters, so fuel equal to the length of the input is always
sufficient — `scanUrlsF_fuel` below proves the result is fuel-independent
from that point on). -/
def scanUrlsF : Nat → List Char → List (List Char)
  | 0, _ => []
  | _ + 1, [] => []
  | fuel + 1, s@(_ :: rest) =>
      match tryUrlAt s with
      | some (m, rem) => m :: scanUrlsF fuel rem
      | none => scanUrlsF fuel rest

/-- The plain-text detector: `re.findall(url_pattern, text_content, re.IGNORECASE)`. -/
def find_text_urls (s : List Char) : List (List Char) :=
  scanUrlsF s.length s

/-! ### HTML anchor detector (`find_unsubscribe_links`, lines 169-181)

`BeautifulSoup(html_content).find_all("a", href=True)` is the external
HTML parser boundary: its output, the document-order list of anchors
carrying an href, is the input of the embedded logic. -/

/-- One parsed anchor element: its href attribute and its text content. -/
structure Anchor where
  href : List Char
  text : List Char
deriving DecidableEq

/-- The anchor-text test of the loop body: `link.get_text().lower()` is
searched against each pattern of `unsubscribe_patterns` until one matches
(`re.search`, case-insensitive; the text is already lower-cased, the
patterns are lower-case literals, and `.` does not cross newlines). -/
def matchesUnsubPattern (t : List Char) : Bool :=
  containsL t "unsubscribe".data
    || containsL t "optout".data || containsL t "opt-out".data
    || containsL t "opt out".data
    || searchGap t "remove".data "list".data
    || searchGap t "stop".data "email".data
    || searchGap2 t "click".data "here".data "remove".data
    || searchGap t "update".data "preferences".data
    || searchGap t "manage".data "subscription".data

/-- The HTML branch: each anchor whose text matches some opt-out pattern
contributes its href once (the inner loop breaks on the first match). -/
def anchorLinks (anchors : List Anchor) : List (List Char) :=
  anchors.filterMap fun a =>
    if matchesUnsubPattern (a.text.map lc) then some a.href else none

/-- `find_unsubscribe_links`: the HTML-anchor candidates (when HTML content
is present, encoded here by the anchor list being what the parser produced),
then the plain-text candidates, then `list(set(...))`. The Python set
iterates in an unspecified order; `List.dedup` models it as some duplicate-
free list of exactly the same elements, which is all any claim relies on. -/
def find_unsubscribe_links (anchors : List Anchor) (textContent : List Char) :
    List (List Char) :=
  (anchorLinks anchors
    ++ (if textContent = [] then [] else find_text_urls textContent)).dedup

/-! ### List-Unsubscribe header extraction (`process_email_file`, line 333)

`re.findall(r"<(https?://[^>]+)>", list_unsubscribe)` — case-sensitive,
capture group 1: the text between an angle-bracket pair when it starts
with `http://` or `https://` and has at least one more character. -/

/-- Match `<(https?://[^>]+)>` anchored at the head of `s`: on success
return the captured group and the remainder after the closing bracket.
The body is the run of non-`>` characters after the opening bracket, so
when the run stops inside the string its successor is necessarily the
closing `>`; the pattern needs `[^>]+` after the scheme, so the body must
be strictly longer than the scheme. -/
def tryListUnsubAt (s : List Char) : Option (List Char × List Char) :=
  match s with
  | [] => none
  | c :: rest =>
      if c = '<' then
        if startsWithL rest "https://".data || startsWithL rest "http://".data then
          let body := rest.takeWhile (fun c2 => !(c2 = '>'))
          let after := rest.dropWhile (fun c2 => !(c2 = '>'))
          let schemeN := if startsWithL rest "https://".data then 8 else 7
          match after with
          | [] => none
          | _ :: rem => if schemeN < body.length then some (body, rem) else none
        else none
      else none

/-- `re.findall` of the header pattern, fuel-driven like `scanUrlsF`. -/
def scanListUnsubF : Nat → List Char → List (List Char)
  | 0, _ => []
  | _ + 1, [] => []
  | fuel + 1, s@(_ :: rest) =>
      match tryListUnsubAt s with
      | some (m, rem) => m :: scanListUnsubF fuel rem
      | none => scanListUnsubF fuel rest

/-- URL extraction from the List-Unsubscribe header value. -/
def extract_list_unsub_urls (s : List Char) : List (List Char) :=
  scanListUnsubF s.length s

/-! ### MIME encoded-word decoding (`decode_mime_words`, lines 89-106)

`email.header.decode_header` (stdlib parse, the boundary) yields a list of
parts, each either already a string or a byte payload with an optional
declared charset. The repository then decodes each byte payload: with a
declared charset via `part.decode(encoding)` — a strict decode that raises
on bytes invalid for that charset — and without one via
`part.decode("utf-8", errors="ignore")`, which never raises and drops
invalid byte sequences. The UTF-8 codec below models the CPython codec:
it rejects overlong forms, surrogates and code points above 0x10FFFF; the
ignore-mode variant resynchronises byte-by-byte after an invalid sequence. -/

/-- Is `b` a UTF-8 continuation byte (`0x80..0xBF`)? -/
def contByte (b : Nat) : Bool := 0x80 ≤ b && b < 0xC0

/-- Strict UTF-8 decoding: `none` models a raised `UnicodeDecodeError`. -/
def utf8Dec : List Nat → Option (List Char)
  | [] => some []
  | b :: rest =>
      if b < 0x80 then (utf8Dec rest).map (fun cs => Char.ofNat b :: cs)
      else if b < 0xC2 then none
      else if b < 0xE0 then
        match rest with
        | b1 :: r =>
            if contByte b1 then
              (utf8Dec r).map (fun cs => Char.ofNat ((b - 0xC0) * 64 + (b1 - 0x80)) :: cs)
            else none
        | [] => none
      else if b < 0xF0 then
        match rest with
        | b1 :: b2 :: r =>
            if contByte b1 && contByte b2
                && !(b = 0xE0 && b1 < 0xA0) && !(b = 0xED && 0xA0 ≤ b1) then
              (utf8Dec r).map
                (fun cs => Char.ofNat ((b - 0xE0) * 4096 + (b1 - 0x80) * 64 + (b2 - 0x80)) :: cs)
            else none
        | _ => none
      else if b < 0xF5 then
        match rest with
        | b1 :: b2 :: b3 :: r =>
            if contByte b1 && contByte b2 && contByte b3
                && !(b = 0xF0 && b1 < 0x90) && !(b = 0xF4 && 0x90 ≤ b1) then
              (utf8Dec r).map
                (fun cs => Char.ofNat ((b - 0xF0) * 262144 + (b1 - 0x80) * 4096
                  + (b2 - 0x80) * 64 + (b3 - 0x80)) :: cs)
            else none
        | _ => none
      else none

/-- UTF-8 decoding with `errors="ignore"`, fuel-driven (each step consumes
at least one byte, so fuel equal to the input length always suffices):
invalid sequences are dropped byte-by-byte and decoding continues; never
fails. -/
def utf8DecIgnoreF : Nat → List Nat → List Char
  | 0, _ => []
  | _ + 1, [] => []
  | fuel + 1, b :: rest =>
      if b < 0x80 then Char.ofNat b :: utf8DecIgnoreF fuel rest
      else if b < 0xC2 then utf8DecIgnoreF fuel rest
      else if b < 0xE0 then
        match rest with
        | b1 :: r =>
            if contByte b1 then
              Char.ofNat ((b - 0xC0) * 64 + (b1 - 0x80)) :: utf8DecIgnoreF fuel r
            else utf8DecIgnoreF fuel rest
        | [] => []
      else if b < 0xF0 then
        match rest with
        | b1 :: b2 :: r =>
            if contByte b1 && contByte b2
                && !(b = 0xE0 && b1 < 0xA0) && !(b = 0xED && 0xA0 ≤ b1) then
              Char.ofNat ((b - 0xE0) * 4096 + (b1 - 0x80) * 64 + (b2 - 0x80))
                :: utf8DecIgnoreF fuel r
            else utf8DecIgnoreF fuel rest
        | _ => utf8DecIgnoreF fuel rest
      else if b < 0xF5 then
        match rest with
        | b1 :: b2 :: b3 :: r =>
            if contByte b1 && contByte b2 && contByte b3
                && !(b = 0xF0 && b1 < 0x90) && !(b = 0xF4 && 0x90 ≤ b1) then
              Char.ofNat ((b - 0xF0) * 262144 + (b1 - 0x80) * 4096
                + (b2 - 0x80) * 64 + (b3 - 0x80)) :: utf8DecIgnoreF fuel r
            else utf8DecIgnoreF fuel rest
        | _ => utf8DecIgnoreF fuel rest
      else utf8DecIgnoreF fuel rest

/-- `bytes.decode("utf-8", errors="ignore")`. -/
def utf8DecIgnore (bs : List Nat) : List Char :=
  utf8DecIgnoreF bs.length bs

/-- A charset name attached to an encoded word by `decode_header`. The
codec registry is modelled for the charsets the claims exercise: `utf8`
decodes strictly per `utf8Dec`; `latin1` maps every byte to the code point
of the same value and never fails. -/
inductive Charset
  | utf8
  | latin1
deriving DecidableEq

/-- `bytes.decode(encoding)` — strict; `none` models the raised error. -/
def strictDecode : Charset → List Nat → Option (List Char)
  | .utf8, bs => utf8Dec bs
  | .latin1, bs => some (bs.map Char.ofNat)

/-- One element of the list returned by `decode_header`. -/
inductive HeaderPart
  | txt (s : List Char)
  | bytes (bs : List Nat) (enc : Option Charset)

/-- The accumulation loop of `decode_mime_words` over the parts of one
header value: string parts are appended as-is; byte parts decode strictly
when a charset is declared (a failure there escapes the function — `none`)
and leniently as UTF-8 otherwise. -/
def decode_mime_words : List HeaderPart → Option (List Char)
  | [] => some []
  | .txt s :: rest => (decode_mime_words rest).map (fun t => s ++ t)
  | .bytes bs none :: rest =>
      (decode_mime_words rest).map (fun t => utf8DecIgnore bs ++ t)
  | .bytes bs (some enc) :: rest =>
      match strictDecode enc bs with
      | none => none
      | some s => (decode_mime_words rest).map (fun t => s ++ t)

/-- Does a header part decode without raising? -/
def partDecodes : HeaderPart → Bool
  | .txt _ => true
  | .bytes _ none => true
  | .bytes bs (some enc) => (strictDecode enc bs).isSome

/-! ### Per-artifact pipeline (`process_email_file`, lines 311-380, and
`log_processing_results`, lines 382-405)

The filesystem, the email parser and the network are oracles gathered in
an environment. `parsed = none` models `email.message_from_bytes` /
metadata / content extraction raising on a malformed artifact; the two
write flags model whether each `open(...); json.dump(...)` in
`log_processing_results` succeeds or raises. -/

/-- The parsed artifact data the pipeline logic consumes. -/
structure EmailData where
  fromHdr : List Char
  anchors : List Anchor
  textContent : List Char
  listUnsubscribe : List Char

/-- Environment of one `process_email_file` call. -/
structure Env where
  parsed : Option EmailData
  net : List Char → NetOutcome
  writeMeta : Bool
  writeActions : Bool

/-- Observable filesystem/log state after one `process_email_file` call:
whether the artifact was relocated out of the intake directory, which of
the two records were persisted, and whether a failure was recorded to the
activity log. -/
structure FileState where
  moved : Bool
  metaWritten : Bool
  actionsWritten : Bool
  errorLogged : Bool
deriving DecidableEq

/-- The opt-out candidate list assembled in `process_email_file`: the
content detectors (deduplicated inside `find_unsubscribe_links`), then —
when a List-Unsubscribe header is present (non-empty value) — the header
URLs appended with `list.extend`. -/
def computeCandidates (e : EmailData) : List (List Char) :=
  let base := find_unsubscribe_links e.anchors e.textContent
  if e.listUnsubscribe = [] then base
  else base ++ extract_list_unsub_urls e.listUnsubscribe

/-- The per-artifact processing result (the fields the claims concern). -/
structure PResult where
  candidates : List (List Char)
  unsubResults : List UnsubResult
  senderDomain : Option (List Char)
  authorityReports : List AuthorityReport
deriving DecidableEq

/-- `process_email_file`: the whole body runs under one `try`; any raise
is caught, logged, and `None` is returned. On the success path the two
records are written (metadata first) and only then is the artifact renamed
into the processed directory. A write failure raises out of
`log_processing_results` into the catch, so the artifact is not moved. -/
def process_email_file (env : Env) : Option PResult × FileState :=
  match env.parsed with
  | none => (none, ⟨false, false, false, true⟩)
  | some e =>
      let links := computeCandidates e
      let results : PResult :=
        { candidates := links
          unsubResults :=
            if links = [] then [] else attempt_unsubscribe env.net links
          senderDomain := extract_sender_domain e.fromHdr
          authorityReports := report_to_authorities }
      if env.writeMeta then
        if env.writeActions then (some results, ⟨true, true, true, false⟩)
        else (none, ⟨false, true, false, true⟩)
      else (none, ⟨false, false, false, true⟩)

/-- `process_all_emails`: the loop body is a bare `process_email_file`
call per discovered file; nothing inspects the outcome, so the batch
always visits every artifact. -/
def process_all_emails (envs : List Env) : List (Option PResult × FileState) :=
  envs.map process_email_file

/-! ### Summary reporter (`generate_summary_report`, lines 420-477)

Each `email_metadata_*.json` file on disk is one `LogEntry`: either its
`json.load` raises (`unreadable`), or it parses to a metadata record and
its correlated `actions_taken_<ts>.json` is absent, unparseable, or good.
The per-file `try` catches any raise, logs an error and continues, so the
fold is total; the warning counter below counts those logged errors. -/

/-- The fields of one parsed metadata record the summary reads. -/
structure MetaRecord where
  senderDomain : Option (List Char)

/-- The fields of one parsed actions record the summary reads: the
success flag of each unsubscribe attempt, and the company name of each
company report. -/
structure ActionsRecord where
  attempts : List Bool
  companies : List (List Char)

/-- State of the actions record correlated to a metadata record. -/
inductive ActionsState
  | absent
  | unparseable
  | good (a : ActionsRecord)

/-- One metadata log file as the summary loop sees it. -/
inductive LogEntry
  | unreadable
  | entry (m : MetaRecord) (acts : ActionsState)

/-- The mutable summary dictionary. -/
structure Summary where
  totalProcessed : Nat
  domains : List (List Char)
  companies : List (List Char)
  totalAttempts : Nat
  successfulAttempts : Nat
deriving DecidableEq

/-- `if x not in xs: xs.append(x)`. -/
def addUnique (l : List (List Char)) (x : List Char) : List (List Char) :=
  if x ∈ l then l else l ++ [x]

/-- `if company and company not in ...: append` for one company report. -/
def addCompany (l : List (List Char)) (c : List Char) : List (List Char) :=
  if c = [] then l else addUnique l c

/-- One iteration of the summary loop, threading the summary and the
count of logged warnings. Domain collection happens before the actions
file is opened, so an unparseable actions file still leaves the domain
contribution in place. -/
def summaryStep : Summary × Nat → LogEntry → Summary × Nat
  | (s, w), .unreadable => (s, w + 1)
  | (s, w), .entry m acts =>
      let s1 :=
        match m.senderDomain with
        | some d => { s with domains := addUnique s.domains d }
        | none => s
      match acts with
      | .absent => (s1, w)
      | .unparseable => (s1, w + 1)
      | .good a =>
          ( { s1 with
                totalAttempts := s1.totalAttempts + a.attempts.length
                successfulAttempts :=
                  s1.successfulAttempts + a.attempts.countP (fun b => b)
                companies := a.companies.foldl addCompany s1.companies }
          , w )

/-- `generate_summary_report`: `total_emails_processed` is the number of
metadata log files (counted before the loop, malformed ones included);
the loop then folds every entry. Returns the summary and the number of
warnings logged for skipped records. -/
def generate_summary_report (entries : List LogEntry) : Summary × Nat :=
  entries.foldl summaryStep
    ( { totalProcessed := entries.length, domains := [], companies := []
        totalAttempts := 0, successfulAttempts := 0 }
    , 0 )

/-- Number of warnings the summary loop logs for one entry (one when its
metadata file or its actions file fails to parse). -/
def warnOf : LogEntry → Nat
  | .unreadable => 1
  | .entry _ .unparseable => 1
  | .entry _ _ => 0

/-- Agreement of two summaries on every statistic other than the
pre-computed total count. -/
def statsAgree (s t : Summary) : Prop :=
  s.domains = t.domains ∧ s.companies = t.companies
    ∧ s.totalAttempts = t.totalAttempts
    ∧ s.successfulAttempts = t.successfulAttempts

instance (s t : Summary) : Decidable (statsAgree s t) := by
  unfold statsAgree; infer_instance

/-! ### Spec-side definitions used to state refutations

These two definitions follow the wording of the claims (not the code):
the path-and-query of a URL, and occurrence of one of the six opt-out
keywords the spec attributes to the detectors. -/

/-- Modelled from the claim wording: the path/query component of a URL is
everything from the first `/` or `?` after the `://` separator. -/
def specPathQuery (u : List Char) : List Char :=
  match schemeLen u with
  | some n => (u.drop n).dropWhile (fun c => !(c = '/' || c = '?'))
  | none => []

/-- Modelled from the claim wording: case-insensitive occurrence of one of
the six opt-out keywords the spec lists for the detectors. -/
def specHasSixKeyword (s : List Char) : Bool :=
  containsL (s.map lc) "unsubscribe".data
    || containsL (s.map lc) "opt-out".data
    || containsL (s.map lc) "remove-from-list".data
    || containsL (s.map lc) "stop-email".data
    || containsL (s.map lc) "update-preferences".data
    || containsL (s.map lc) "manage-subscription".data

/-! ### Concrete inputs used by witnesses and counterexamples -/

/-- A URL that appears both as an opt-out anchor and in the
List-Unsubscribe header. -/
def c1Url : List Char := "https://e.x/unsubscribe".data

/-- Message whose content and List-Unsubscribe header carry the same URL. -/
def c1Email : EmailData :=
  { fromHdr := "a@b.com".data
    anchors := [{ href := c1Url, text := "Unsubscribe".data }]
    textContent := []
    listUnsubscribe := "<https://e.x/unsubscribe>".data }

/-- A candidate opt-out URL. -/
def c2Link : List Char := "https://e.x/u".data

/-- Network oracle answering every request with a 204 No Content response. -/
def c2Net204 : List Char → NetOutcome :=
  fun _ => .response 204 "https://e.x/done".data

/-- Network oracle answering every request with a 200 response. -/
def c2Net200 : List Char → NetOutcome :=
  fun _ => .response 200 "https://e.x/done".data

/-- Environment of a malformed artifact: extraction raises. -/
def c3BadEnv : Env :=
  { parsed := none, net := c2Net200, writeMeta := true, writeActions := true }

/-- Environment of a well-formed artifact whose record writes succeed. -/
def c4GoodEnv : Env :=
  { parsed := some c1Email, net := c2Net200
    writeMeta := true, writeActions := true }

/-- Candidate list with one failing and one succeeding endpoint. -/
def c6Links : List (List Char) :=
  ["https://bad.example/u".data, "https://ok.example/u".data]

/-- Network oracle: the bad endpoint times out, every other one returns 200. -/
def c6Net : List Char → NetOutcome :=
  fun l =>
    if l = "https://bad.example/u".data then .exc "timeout".data
    else .response 200 l

/-- Plain-text content carrying a URL whose only opt-out keyword sits in
the host name. -/
def c8Text : List Char := "please visit http://xunsubscribe.example/ today".data

/-- The URL the plain-text detector extracts from `c8Text`. -/
def c8Url : List Char := "http://xunsubscribe.example/".data

/-- Environment of a trivial well-formed artifact. -/
def c10GoodEnv : Env :=
  { parsed := some { fromHdr := [], anchors := [], textContent := []
                     listUnsubscribe := [] }
    net := c2Net200, writeMeta := true, writeActions := true }

/-- The processing result of `c10GoodEnv`. -/
def c10Res : PResult :=
  { candidates := [], unsubResults := [], senderDomain := none
    authorityReports := report_to_authorities }

/-! ## Helper lemmas -/

/-- `takeWhile` is the identity on a list all of whose elements satisfy
the predicate. -/
theorem takeWhile_of_all {p : Char → Bool} :
    ∀ (l : List Char), (∀ c ∈ l, p c = true) → l.takeWhile p = l
  | [], _ => rfl
  | c :: cs, h => by
      have hc : p c = true := h c (by simp)
      simp [List.takeWhile_cons, hc,
        takeWhile_of_all cs (fun d hd => h d (by simp [hd]))]

/-- The domain regular-expression search skips any prefix without an `@`. -/
theorem domainSearch_skip {pre : List Char} (hpre : '@' ∉ pre) (t : List Char) :
    domainSearch (pre ++ t) = domainSearch t := by
  induction pre with
  | nil => rfl
  | cons c cs ih =>
      have hc : ¬ c = '@' := fun h => hpre (by simp [h])
      have ih2 := ih (fun h => hpre (List.mem_cons_of_mem c h))
      simpa [domainSearch, hc] using ih2

/-- A keyword occurrence survives prepending characters. -/
theorem kwSomewhere_append (p t : List Char) (h : kwSomewhere t = true) :
    kwSomewhere (p ++ t) = true := by
  induction p with
  | nil => simpa
  | cons c cs ih => simp [kwSomewhere, ih]

/-- A keyword occurrence at offset at least 1 is an occurrence. -/
theorem kwProper_somewhere : ∀ {run : List Char},
    kwProper run = true → kwSomewhere run = true
  | [], h => by simp [kwProper] at h
  | c :: r, h => by
      have hr : kwSomewhere r = true := by simpa [kwProper] using h
      simp [kwSomewhere, hr]

/-- Every match of the plain-text URL pattern contains a keyword. -/
theorem tryUrlAt_kw {s m rem : List Char} (h : tryUrlAt s = some (m, rem)) :
    kwSomewhere m = true := by
  simp only [tryUrlAt] at h
  cases hn : schemeLen s with
  | none => rw [hn] at h; cases h
  | some n =>
      rw [hn] at h
      simp only at h
      by_cases hk : kwProper ((s.drop n).takeWhile isUrlChar) = true
      · rw [if_pos hk] at h
        have hm : s.take n ++ (s.drop n).takeWhile isUrlChar = m := by
          injection h with h1
          exact congrArg Prod.fst h1
        exact hm ▸ kwSomewhere_append _ _ (kwProper_somewhere hk)
      · rw [if_neg hk] at h; cases h

/-- Soundness of the fuel-driven URL scanner: every extracted URL
contains one of the pattern keywords. -/
theorem scanUrlsF_kw : ∀ (fuel : Nat) (s u : List Char),
    u ∈ scanUrlsF fuel s → kwSomewhere u = true := by
  intro fuel
  induction fuel with
  | zero => intro s u h; simp [scanUrlsF] at h
  | succ f ih =>
      intro s u h
      cases s with
      | nil => simp [scanUrlsF] at h
      | cons c rest =>
          cases ht : tryUrlAt (c :: rest) with
          | none =>
              rw [scanUrlsF, ht] at h
              exact ih _ _ h
          | some pr =>
              rcases pr with ⟨m, rem⟩
              rw [scanUrlsF, ht] at h
              rcases List.mem_cons.mp h with rfl | h2
              · exact tryUrlAt_kw ht
              · exact ih _ _ h2

/-- Dropping a prefix can only shorten a list. -/
theorem length_dropWhile_le (p : Char → Bool) (l : List Char) :
    (l.dropWhile p).length ≤ l.length :=
  (List.dropWhile_suffix p).length_le

/-- Bounds of a scheme match: it is non-empty and fits in the input. -/
theorem schemeLen_le {s : List Char} {n : Nat} (h : schemeLen s = some n) :
    0 < n ∧ n ≤ s.length := by
  unfold schemeLen at h
  by_cases h8 : (s.take 8).map lc = "https://".data
  · rw [if_pos h8] at h
    injection h with h1
    subst h1
    refine ⟨by omega, ?_⟩
    have hl : ((s.take 8).map lc).length = 8 := by rw [h8]; rfl
    simp [List.length_map, List.length_take] at hl
    omega
  · rw [if_neg h8] at h
    by_cases h7 : (s.take 7).map lc = "http://".data
    · rw [if_pos h7] at h
      injection h with h1
      subst h1
      refine ⟨by omega, ?_⟩
      have hl : ((s.take 7).map lc).length = 7 := by rw [h7]; rfl
      simp [List.length_map, List.length_take] at hl
      omega
    · rw [if_neg h7] at h; cases h

/-- A URL-pattern match strictly shrinks the input, so scanning with fuel
equal to the input length never runs out. -/
theorem tryUrlAt_rem_lt {s m rem : List Char}
    (h : tryUrlAt s = some (m, rem)) : rem.length < s.length := by
  simp only [tryUrlAt] at h
  cases hn : schemeLen s with
  | none => rw [hn] at h; cases h
  | some n =>
      rw [hn] at h
      simp only at h
      by_cases hk : kwProper ((s.drop n).takeWhile isUrlChar) = true
      · rw [if_pos hk] at h
        injection h with h1
        have hrem : rem = (s.drop n).dropWhile isUrlChar :=
          (congrArg Prod.snd h1).symm
        obtain ⟨hn1, hn2⟩ := schemeLen_le hn
        have hdw : ((s.drop n).dropWhile isUrlChar).length ≤ (s.drop n).length :=
          length_dropWhile_le _ _
        have hd : (s.drop n).length = s.length - n := List.length_drop n s
        rw [hrem]
        omega
      · rw [if_neg hk] at h; cases h

/-- The URL scanner is fuel-independent once the fuel covers the input:
`find_text_urls` is the total `re.findall`, not a truncation. -/
theorem scanUrlsF_stable : ∀ (f g : Nat) (s : List Char),
    s.length ≤ f → s.length ≤ g → scanUrlsF f s = scanUrlsF g s := by
  intro f
  induction f with
  | zero =>
      intro g s hf hg
      have hs : s = [] := List.length_eq_zero.mp (Nat.le_zero.mp hf)
      subst hs
      cases g <;> rfl
  | succ f ih =>
      intro g s hf hg
      cases s with
      | nil => cases g <;> rfl
      | cons c rest =>
          cases g with
          | zero => simp at hg
          | succ g =>
              rw [scanUrlsF, scanUrlsF]
              cases ht : tryUrlAt (c :: rest) with
              | none =>
                  simp only [ht]
                  simp only [List.length_cons] at hf hg
                  exact ih g rest (by omega) (by omega)
              | some pr =>
                  rcases pr with ⟨m, rem⟩
                  simp only [ht]
                  have hlt := tryUrlAt_rem_lt ht
                  simp only [List.length_cons] at hf hg hlt
                  rw [ih g rem (by omega) (by omega)]

/-- A header-pattern match strictly shrinks the input. -/
theorem tryListUnsubAt_rem_lt {s m rem : List Char}
    (h : tryListUnsubAt s = some (m, rem)) : rem.length < s.length := by
  cases s with
  | nil => cases h
  | cons c rest =>
      simp only [tryListUnsubAt] at h
      by_cases hc : c = '<'
      · rw [if_pos hc] at h
        by_cases hs : (startsWithL rest "https://".data
            || startsWithL rest "http://".data) = true
        · rw [if_pos hs] at h
          cases hafter : rest.dropWhile (fun c2 => !(c2 = '>')) with
          | nil => rw [hafter] at h; cases h
          | cons c2 rem2 =>
              rw [hafter] at h
              simp only at h
              by_cases hlen : (if startsWithL rest "https://".data then 8 else 7)
                  < (rest.takeWhile (fun c2 => !(c2 = '>'))).length
              · rw [if_pos hlen] at h
                injection h with h1
                have hr : rem = rem2 := (congrArg Prod.snd h1).symm
                have hle : (c2 :: rem2).length ≤ rest.length := by
                  rw [← hafter]
                  exact length_dropWhile_le _ _
                simp only [List.length_cons] at hle ⊢
                rw [hr]
                omega
              · rw [if_neg hlen] at h; cases h
        · rw [if_neg hs] at h; cases h
      · rw [if_neg hc] at h; cases h

/-- The header scanner is fuel-independent once the fuel covers the
input: `extract_list_unsub_urls` is the total `re.findall`. -/
theorem scanListUnsubF_stable : ∀ (f g : Nat) (s : List Char),
    s.length ≤ f → s.length ≤ g → scanListUnsubF f s = scanListUnsubF g s := by
  intro f
  induction f with
  | zero =>
      intro g s hf hg
      have hs : s = [] := List.length_eq_zero.mp (Nat.le_zero.mp hf)
      subst hs
      cases g <;> rfl
  | succ f ih =>
      intro g s hf hg
      cases s with
      | nil => cases g <;> rfl
      | cons c rest =>
          cases g with
          | zero => simp at hg
          | succ g =>
              rw [scanListUnsubF, scanListUnsubF]
              cases ht : tryListUnsubAt (c :: rest) with
              | none =>
                  simp only [ht]
                  simp only [List.length_cons] at hf hg
                  exact ih g rest (by omega) (by omega)
              | some pr =>
                  rcases pr with ⟨m, rem⟩
                  simp only [ht]
                  have hlt := tryListUnsubAt_rem_lt ht
                  simp only [List.length_cons] at hf hg hlt
                  rw [ih g rem (by omega) (by omega)]

/-- One summary-loop step never touches the pre-computed total count. -/
theorem summaryStep_total (p : Summary × Nat) (e : LogEntry) :
    (summaryStep p e).1.totalProcessed = p.1.totalProcessed := by
  rcases p with ⟨s, w⟩
  cases e with
  | unreadable => rfl
  | entry m acts =>
      cases acts <;> cases hm : m.senderDomain <;> simp [summaryStep, hm]

/-- The summary fold never touches the pre-computed total count. -/
theorem foldl_summary_total (es : List LogEntry) : ∀ p : Summary × Nat,
    (es.foldl summaryStep p).1.totalProcessed = p.1.totalProcessed := by
  induction es with
  | nil => intro p; rfl
  | cons e rest ih => intro p; rw [List.foldl_cons, ih, summaryStep_total]

/-- One summary-loop step logs exactly `warnOf` warnings. -/
theorem summaryStep_warn (p : Summary × Nat) (e : LogEntry) :
    (summaryStep p e).2 = p.2 + warnOf e := by
  rcases p with ⟨s, w⟩
  cases e with
  | unreadable => rfl
  | entry m acts =>
      cases acts <;> cases hm : m.senderDomain <;> simp [summaryStep, warnOf, hm]

/-- The summary fold logs one warning per unparseable record. -/
theorem foldl_summary_warn (es : List LogEntry) : ∀ p : Summary × Nat,
    (es.foldl summaryStep p).2 = p.2 + (es.map warnOf).sum := by
  induction es with
  | nil => intro p; simp
  | cons e rest ih =>
      intro p
      rw [List.foldl_cons, ih, summaryStep_warn, List.map_cons, List.sum_cons]
      omega

/-- A skipped entry only bumps the warning counter. -/
theorem summaryStep_unreadable (p : Summary × Nat) :
    summaryStep p .unreadable = (p.1, p.2 + 1) := rfl

/-- One summary-loop step preserves agreement of the accumulated
statistics (it never reads the total count or the warning counter). -/
theorem summaryStep_agree {s t : Summary} (hst : statsAgree s t)
    (w v : Nat) (e : LogEntry) :
    statsAgree (summaryStep (s, w) e).1 (summaryStep (t, v) e).1 := by
  obtain ⟨h1, h2, h3, h4⟩ := hst
  cases e with
  | unreadable => exact ⟨h1, h2, h3, h4⟩
  | entry m acts =>
      cases acts <;> cases hm : m.senderDomain <;>
        simp [summaryStep, statsAgree, hm, h1, h2, h3, h4]

/-- The summary fold preserves agreement of the accumulated statistics. -/
theorem foldl_summary_agree : ∀ (es : List LogEntry) {s t : Summary}
    (w v : Nat), statsAgree s t →
    statsAgree (es.foldl summaryStep (s, w)).1
      (es.foldl summaryStep (t, v)).1 := by
  intro es
  induction es with
  | nil => intro s t w v h; exact h
  | cons e rest ih =>
      intro s t w v h
      rw [List.foldl_cons, List.foldl_cons]
      exact ih (summaryStep (s, w) e).2 (summaryStep (t, v) e).2
        (summaryStep_agree h w v e)

/-! ## Claims -/

/-- C1, counterexample: for the message `c1Email`, whose HTML content
carries an opt-out anchor for `c1Url` and whose List-Unsubscribe header
carries the same URL, the opt-out candidate list contains that URL twice —
the candidates are not deduplicated across all three detectors, refuting
the claim. -/
theorem c1_counterexample :
    computeCandidates c1Email = [c1Url, c1Url]
      ∧ ¬ (computeCandidates c1Email).Nodup
      ∧ c1Url ∈ find_unsubscribe_links c1Email.anchors c1Email.textContent
      ∧ c1Url ∈ extract_list_unsub_urls c1Email.listUnsubscribe := by decide

/-- C1 (amended): the candidates found by the two content detectors
(HTML anchors and plain text) are deduplicated by exact string equality,
but the List-Unsubscribe header URLs are appended afterwards without any
deduplication against them, so only the content part of the candidate
list is duplicate-free. -/
theorem c1_content_dedup (e : EmailData) :
    (find_unsubscribe_links e.anchors e.textContent).Nodup
      ∧ computeCandidates e
        = find_unsubscribe_links e.anchors e.textContent
          ++ (if e.listUnsubscribe = [] then []
              else extract_list_unsub_urls e.listUnsubscribe) := by
  refine ⟨List.nodup_dedup _, ?_⟩
  by_cases h : e.listUnsubscribe = [] <;> simp [computeCandidates, h]

/-- C1 witness: the amended statement at the concrete message `c1Email`. -/
theorem c1_witness :
    (find_unsubscribe_links c1Email.anchors c1Email.textContent).Nodup
      ∧ computeCandidates c1Email
        = find_unsubscribe_links c1Email.anchors c1Email.textContent
          ++ (if c1Email.listUnsubscribe = [] then []
              else extract_list_unsub_urls c1Email.listUnsubscribe) :=
  c1_content_dedup c1Email

/-- C2, counterexample: a candidate answered with a 204 No Content
response — a 200-class status — is recorded with `success = false`,
because the code compares the status to exactly 200; this refutes the
claim that success holds iff the status is in the 200 class. -/
theorem c2_counterexample :
    (attempt_unsubscribe c2Net204 [c2Link]).map
        (fun r => (r.statusCode, r.success)) = [(some 204, false)]
      ∧ (200 ≤ 204 ∧ 204 < 300) := by decide

/-- C2 (amended): for every candidate for which an HTTP response is
received, the recorded attempt result has `success = true` iff the
response status code equals exactly 200 (other 200-class codes are
recorded as non-success). -/
theorem c2_success_iff_exact_200 (net : List Char → NetOutcome)
    (links : List (List Char)) (r : UnsubResult)
    (hr : r ∈ attempt_unsubscribe net links) (code : Nat)
    (hc : r.statusCode = some code) :
    r.success = true ↔ code = 200 := by
  rcases List.mem_map.mp hr with ⟨l, _, rfl⟩
  cases h : net l with
  | response c u =>
      simp only [attemptOne, h] at hc ⊢
      have : c = code := by simpa using hc
      subst this
      simp
  | exc m => simp [attemptOne, h] at hc

/-- C2 witness: the amended statement at a concrete 200 response. -/
theorem c2_witness :
    (attemptOne c2Net200 c2Link).success = true ↔ 200 = 200 :=
  c2_success_iff_exact_200 c2Net200 [c2Link] (attemptOne c2Net200 c2Link)
    (by decide) 200 (by decide)

/-- C3: when metadata/content extraction of an artifact raises, the
artifact is not relocated, neither record is persisted, the failure is
recorded to the activity log, and the batch loop still processes the
remaining artifacts. -/
theorem c3_malformed_artifact (env : Env) (envs : List Env)
    (h : env.parsed = none) :
    process_email_file env
        = (none, { moved := false, metaWritten := false
                   actionsWritten := false, errorLogged := true })
      ∧ process_all_emails (env :: envs)
        = process_email_file env :: process_all_emails envs := by
  exact ⟨by simp [process_email_file, h], by simp [process_all_emails]⟩

/-- C3 witness: the statement at a concrete malformed artifact. -/
theorem c3_witness :
    process_email_file c3BadEnv
        = (none, { moved := false, metaWritten := false
                   actionsWritten := false, errorLogged := true })
      ∧ process_all_emails [c3BadEnv]
        = process_email_file c3BadEnv :: process_all_emails [] :=
  c3_malformed_artifact c3BadEnv [] rfl

/-- C4: the artifact is relocated exactly when parsing and both record
writes succeed, and whenever it is relocated both the metadata record and
the actions record have been written — a failed write of either record
means the artifact is never moved. -/
theorem c4_move_only_after_records (env : Env) :
    ((process_email_file env).2.moved = true
        ↔ env.parsed.isSome = true ∧ env.writeMeta = true
            ∧ env.writeActions = true)
      ∧ ((process_email_file env).2.moved = true
          → (process_email_file env).2.metaWritten = true
            ∧ (process_email_file env).2.actionsWritten = true) := by
  rcases env with ⟨p, net, wm, wa⟩
  cases p <;> cases wm <;> cases wa <;> simp [process_email_file]

/-- C4 witness: the statement at a concrete fully-successful environment. -/
theorem c4_witness :
    ((process_email_file c4GoodEnv).2.moved = true
        ↔ c4GoodEnv.parsed.isSome = true ∧ c4GoodEnv.writeMeta = true
            ∧ c4GoodEnv.writeActions = true)
      ∧ ((process_email_file c4GoodEnv).2.moved = true
          → (process_email_file c4GoodEnv).2.metaWritten = true
            ∧ (process_email_file c4GoodEnv).2.actionsWritten = true) :=
  c4_move_only_after_records c4GoodEnv

/-- C5, counterexample: the From value `a@b_c.de` is an address with
exactly one `@` whose domain part `b_c.de` is a syntactically valid
RFC 5322 dot-atom (underscore is a legal atext character), yet the code
derives `sender_domain = "b"` — the regular expression stops at the
underscore — refuting the claim that the derived domain equals the
substring after the `@`. -/
theorem c5_counterexample :
    extract_sender_domain "a@b_c.de".data = some "b".data
      ∧ "a@b_c.de".data.count '@' = 1
      ∧ "a@b_c.de".data = "a".data ++ '@' :: "b_c.de".data
      ∧ some "b".data ≠ some "b_c.de".data := by decide

/-- C5 (amended): the derived sender domain is the maximal run of
characters from `[a-zA-Z0-9.-]` after the first qualifying `@`; in
particular, whenever the whole part after the single `@` consists of such
characters, it equals the substring after the `@`. -/
theorem c5_domain_after_at (pre dom : List Char) (h1 : '@' ∉ pre)
    (h2 : dom ≠ []) (h3 : ∀ c ∈ dom, isDomainChar c = true) :
    extract_sender_domain (pre ++ '@' :: dom) = some dom := by
  unfold extract_sender_domain
  rw [if_pos (by simp), domainSearch_skip h1]
  have ht : dom.takeWhile isDomainChar = dom := takeWhile_of_all dom h3
  simp [domainSearch, ht, h2]

/-- C5 witness: the amended statement at the concrete address `a@b.com`. -/
theorem c5_witness :
    extract_sender_domain ("a".data ++ '@' :: "b.com".data)
      = some "b.com".data :=
  c5_domain_after_at "a".data "b.com".data (by decide) (by decide) (by decide)

/-- C6: the attempt step always returns exactly one result per candidate,
the number of results with `success = false` and a populated error
description equals the number of candidates whose request raised a
transport-level exception, and each individual result carries a non-success
flag together with a populated error exactly when its own request raised. -/
theorem c6_attempt_isolation (net : List Char → NetOutcome)
    (links : List (List Char)) :
    (attempt_unsubscribe net links).length = links.length
      ∧ (attempt_unsubscribe net links).countP
            (fun r => !r.success && r.error.isSome)
          = links.countP (netRaises net)
      ∧ ∀ r ∈ attempt_unsubscribe net links,
          (!r.success && r.error.isSome) = netRaises net r.link := by
  refine ⟨List.length_map _ _, ?_, ?_⟩
  · rw [attempt_unsubscribe, List.countP_map]
    apply List.countP_congr
    intro l _
    cases h : net l <;> simp [attemptOne, netRaises, h, Function.comp]
  · intro r hr
    rcases List.mem_map.mp hr with ⟨l, _, rfl⟩
    cases h : net l <;> simp [attemptOne, netRaises, h]

/-- C6 witness: the statement at two concrete candidates of which exactly
one raises a simulated timeout. -/
theorem c6_witness :
    (attempt_unsubscribe c6Net c6Links).length = c6Links.length
      ∧ (attempt_unsubscribe c6Net c6Links).countP
            (fun r => !r.success && r.error.isSome)
          = c6Links.countP (netRaises c6Net)
      ∧ ∀ r ∈ attempt_unsubscribe c6Net c6Links,
          (!r.success && r.error.isSome) = netRaises c6Net r.link :=
  c6_attempt_isolation c6Net c6Links

/-- C10: every successfully processed artifact carries exactly the three
staged authority-report descriptors — FTC (manual submission required),
IC3 (manual submission required) and APWG (ready for email submission) —
in that order, independently of the message. -/
theorem c10_three_authority_reports (env : Env) (res : PResult)
    (st : FileState) (h : process_email_file env = (some res, st)) :
    res.authorityReports
      = [ { authority := "FTC".data, method := "Online Form".data
            status := "Manual submission required".data }
        , { authority := "IC3".data, method := "Online Form".data
            status := "Manual submission required".data }
        , { authority := "APWG".data, method := "Email".data
            status := "Ready for email submission".data } ] := by
  rcases env with ⟨p, net, wm, wa⟩
  cases p with
  | none => simp [process_email_file] at h
  | some e =>
      cases wm <;> cases wa <;> simp [process_email_file] at h
      rw [← h.1]
      rfl

/-- C10 witness: the statement at a concrete successful environment. -/
theorem c10_witness :
    c10Res.authorityReports
      = [ { authority := "FTC".data, method := "Online Form".data
            status := "Manual submission required".data }
        , { authority := "IC3".data, method := "Online Form".data
            status := "Manual submission required".data }
        , { authority := "APWG".data, method := "Email".data
            status := "Ready for email submission".data } ] :=
  c10_three_authority_reports c10GoodEnv c10Res
    { moved := true, metaWritten := true, actionsWritten := true
      errorLogged := false } (by decide)

/-- C7, counterexample: the header value `=?utf-8?B?/w==?=` makes
`decode_header` return the byte `0xFF` with declared charset utf-8; the
code then decodes it strictly, which raises (`none` in the model) —
refuting the claim that decoding never raises and always degrades to a
best-effort conversion. -/
theorem c7_counterexample :
    decode_mime_words [.bytes [255] (some .utf8)] = none
      ∧ (strictDecode .utf8 [255]).isNone = true := by decide

/-- C7 (amended): decoding returns a plain string exactly when every
encoded word with a declared charset strict-decodes cleanly; byte parts
without a declared charset always decode (best-effort UTF-8 with invalid
sequences dropped), but a declared-charset decode failure escapes the
function. -/
theorem c7_decode_raises_iff (parts : List HeaderPart) :
    (decode_mime_words parts).isSome = true
      ↔ ∀ p ∈ parts, partDecodes p = true := by
  induction parts with
  | nil => simp [decode_mime_words]
  | cons p rest ih =>
      cases p with
      | txt s =>
          simp only [decode_mime_words, List.forall_mem_cons]
          cases hd : decode_mime_words rest with
          | none => simpa [hd, partDecodes] using ih
          | some t => simpa [hd, partDecodes] using ih
      | bytes bs enc =>
          cases enc with
          | none =>
              simp only [decode_mime_words, List.forall_mem_cons]
              cases hd : decode_mime_words rest with
              | none => simpa [hd, partDecodes] using ih
              | some t => simpa [hd, partDecodes] using ih
          | some e =>
              cases h : strictDecode e bs with
              | none => simp [decode_mime_words, h, partDecodes]
              | some s =>
                  simp only [decode_mime_words, h, List.forall_mem_cons]
                  cases hd : decode_mime_words rest with
                  | none => simpa [hd, partDecodes, h] using ih
                  | some t => simpa [hd, partDecodes, h] using ih

/-- C8, counterexample: the plain-text detector extracts
`http://xunsubscribe.example/` from `c8Text`, although its path is `/`
and its query is empty — the only keyword occurrence lies in the host —
refuting the claim that only URLs with an opt-out keyword in the path or
query are yielded. -/
theorem c8_counterexample :
    find_text_urls c8Text = [c8Url]
      ∧ specPathQuery c8Url = "/".data
      ∧ specHasSixKeyword (specPathQuery c8Url) = false := by decide

/-- C8 (amended): every URL the plain-text detector yields contains one
of the pattern keywords `unsubscribe`, `opt-out`, `optout` or `remove`
(case-insensitively) somewhere after at least one character — anywhere in
the URL, host included, not only in the path or query, and with a keyword
list that differs from the one the markup detector uses. -/
theorem c8_keyword_in_url (s u : List Char) (h : u ∈ find_text_urls s) :
    kwSomewhere u = true :=
  scanUrlsF_kw s.length s u h

/-- C8 witness: the amended statement at the concrete content `c8Text`. -/
theorem c8_witness : kwSomewhere c8Url = true :=
  c8_keyword_in_url c8Text c8Url (by decide)

/-- C9: a metadata record with no correlated actions record changes
nothing but the domain list (the unique-domain collection is applied,
the opt-out-attempt and company statistics and the warning counter are
untouched); the total processed count is the number of metadata records;
and an unreadable record contributes nothing to the statistics, adds one
to the total count and one logged warning, and never aborts the fold over
the remaining records. -/
theorem c9_summary_fold :
    (∀ (s : Summary) (w : Nat) (m : MetaRecord),
        summaryStep (s, w) (.entry m .absent)
          = ( { s with domains :=
                  match m.senderDomain with
                  | some d => addUnique s.domains d
                  | none => s.domains }
            , w ))
      ∧ (∀ entries : List LogEntry,
          (generate_summary_report entries).1.totalProcessed = entries.length)
      ∧ (∀ xs ys : List LogEntry,
          statsAgree (generate_summary_report (xs ++ LogEntry.unreadable :: ys)).1
              (generate_summary_report (xs ++ ys)).1
            ∧ (generate_summary_report (xs ++ LogEntry.unreadable :: ys)).1.totalProcessed
              = (generate_summary_report (xs ++ ys)).1.totalProcessed + 1
            ∧ (generate_summary_report (xs ++ LogEntry.unreadable :: ys)).2
              = (generate_summary_report (xs ++ ys)).2 + 1) := by
  refine ⟨?_, ?_, ?_⟩
  · intro s w m
    cases hm : m.senderDomain <;> simp [summaryStep, hm]
  · intro entries
    rw [generate_summary_report, foldl_summary_total]
  · intro xs ys
    unfold generate_summary_report
    rw [List.foldl_append, List.foldl_append, List.foldl_cons,
      summaryStep_unreadable]
    refine ⟨?_, ?_, ?_⟩
    · exact foldl_summary_agree ys _ _
        (foldl_summary_agree xs 0 0 ⟨rfl, rfl, rfl, rfl⟩)
    · rw [foldl_summary_total, foldl_summary_total, foldl_summary_total,
        foldl_summary_total]
      simp [List.length_append]
      omega
    · rw [foldl_summary_warn, foldl_summary_warn, foldl_summary_warn,
        foldl_summary_warn]
      omega
